import Mathlib

/-!
Shallow embedding of `tractseg/data/DLDABG_standalone.py` and proofs about it.

Conventions used throughout:
* numpy floating point values are modelled as real numbers (`ℝ`);
* a numpy array is modelled either as a total function from natural-number
  indices to `ℝ` (its shape living outside the function), or, where a claim is
  about shapes, as a `shape`-carrying record (`NArr`);
* each call to the process-wide random source is modelled as an explicit input:
  `np.random.uniform(lo, hi)` becomes `uniformD lo hi r` with a fresh tape
  value `r ∈ [0,1)`;
* external batchgenerators primitives (coordinate meshes, elastic deformation,
  resampling, random cropping, scipy zoom) are abstract function parameters,
  except where the spec pins their behaviour down, in which case they are
  modelled from the spec and marked as such.
-/

namespace TractSeg

noncomputable section

open Classical

/-- Python exception model: the code under study raises either an
`IndexError` (out-of-range tuple/array access) or a `ValueError` carrying a
message. -/
inductive PyErr where
  | indexError : PyErr
  | valueError : String → PyErr
  deriving DecidableEq

/-- Spatial index of a 3D voxel `(x, y, z)`. -/
abbrev Idx3 : Type := ℕ × ℕ × ℕ

/-- Component `d` of a shape/patch triple, mirroring `shape[d]`. -/
def comp3 (p : Idx3) (d : Fin 3) : ℕ :=
  if d = 0 then p.1 else if d = 1 then p.2.1 else p.2.2

/-- A 3×3 real matrix. -/
def Mat3 : Type := Fin 3 → Fin 3 → ℝ

/-- 3×3 matrix product (`np.dot` on 3×3 arrays), written with the sum
unfolded. -/
def matMul3 (A B : Mat3) : Mat3 :=
  fun i k => A i 0 * B 0 k + A i 1 * B 1 k + A i 2 * B 2 k

/-- Row-vector/matrix product (`np.dot(v, M)` for a length-3 row vector). -/
def vecMul3 (v : Fin 3 → ℝ) (M : Mat3) : Fin 3 → ℝ :=
  fun k => v 0 * M 0 k + v 1 * M 1 k + v 2 * M 2 k

/-- `np.identity(3)`. -/
def id3 : Mat3 := fun i j => if i = j then 1 else 0

/-- The standard rotation matrix about the X axis,
`[[1,0,0],[0,cos a,-sin a],[0,sin a,cos a]]`. -/
def rotMx (a : ℝ) : Mat3 := fun i j =>
  if i = 0 ∧ j = 0 then 1
  else if i = 1 ∧ j = 1 then Real.cos a
  else if i = 1 ∧ j = 2 then -Real.sin a
  else if i = 2 ∧ j = 1 then Real.sin a
  else if i = 2 ∧ j = 2 then Real.cos a
  else 0

/-- The standard rotation matrix about the Y axis,
`[[cos a,0,sin a],[0,1,0],[-sin a,0,cos a]]`. -/
def rotMy (a : ℝ) : Mat3 := fun i j =>
  if i = 0 ∧ j = 0 then Real.cos a
  else if i = 0 ∧ j = 2 then Real.sin a
  else if i = 1 ∧ j = 1 then 1
  else if i = 2 ∧ j = 0 then -Real.sin a
  else if i = 2 ∧ j = 2 then Real.cos a
  else 0

/-- The standard rotation matrix about the Z axis,
`[[cos a,-sin a,0],[sin a,cos a,0],[0,0,1]]`. -/
def rotMz (a : ℝ) : Mat3 := fun i j =>
  if i = 0 ∧ j = 0 then Real.cos a
  else if i = 0 ∧ j = 1 then -Real.sin a
  else if i = 1 ∧ j = 0 then Real.sin a
  else if i = 1 ∧ j = 1 then Real.cos a
  else if i = 2 ∧ j = 2 then 1
  else 0

/-- Modelled from the spec: `create_matrix_rotation_x_3d(angle, matrix)` from
`batchgenerators.augmentations.utils` (external collaborator whose source is
not in the repository). The spec states that threading the matrix through the
x, y, z builders in that order yields the composed rotation matrix
`R = Rz·Ry·Rx` applied to row vectors, which fixes the convention: each
builder multiplies its axis rotation on the left of the accumulated matrix. -/
def create_matrix_rotation_x_3d (angle : ℝ) (m : Mat3) : Mat3 :=
  matMul3 (rotMx angle) m

/-- Modelled from the spec: `create_matrix_rotation_y_3d(angle, matrix)`,
see `create_matrix_rotation_x_3d`. -/
def create_matrix_rotation_y_3d (angle : ℝ) (m : Mat3) : Mat3 :=
  matMul3 (rotMy angle) m

/-- Modelled from the spec: `create_matrix_rotation_z_3d(angle, matrix)`,
see `create_matrix_rotation_x_3d`. -/
def create_matrix_rotation_z_3d (angle : ℝ) (m : Mat3) : Mat3 :=
  matMul3 (rotMz angle) m

/-- The rotation matrix built inside `rotate_peaks` (lines 262–265 of the
source): start from `np.identity(3)` and thread it through the x, y, z
builders in that order. -/
def rotPeaksMatrix (ax ay az : ℝ) : Mat3 :=
  create_matrix_rotation_z_3d az
    (create_matrix_rotation_y_3d ay (create_matrix_rotation_x_3d ax id3))

/-- `rotate_peaks(peaks, angle_x, angle_y, angle_z)` (source lines 260–267).
`peaks` is a channel-indexed vector field; channels `0,1,2` hold the X/Y/Z
components.  Per spatial location the row 3-vector is multiplied by the
composed rotation matrix (`np.dot(peaks.reshape(3,-1).transpose(), rot_matrix)`
followed by the inverse reshape). Channels `≥ 3` do not exist in the numpy
array and are mapped to `0`. -/
def rotate_peaks {σ : Type} (peaks : ℕ → σ → ℝ) (ax ay az : ℝ) : ℕ → σ → ℝ :=
  fun r idx =>
    if h : r < 3 then
      vecMul3 (fun j => peaks (j : ℕ) idx) (rotPeaksMatrix ax ay az) ⟨r, h⟩
    else 0

/-- `rotate_peaks_all(data, angle_x, angle_y, angle_z)` (source lines
269–278): allocate `np.zeros(data.shape)` and, for `i in range(3)`, write
`rotate_peaks` of the channel slice `[3i, 3i+3)` back into the same slice.
Hence output channel `ch < 9` is component `ch % 3` of `rotate_peaks` applied
to the contiguous triple starting at `3*(ch/3)`, and every channel `ch ≥ 9`
keeps its `np.zeros` initial value. -/
def rotate_peaks_all {σ : Type} (data : ℕ → σ → ℝ) (ax ay az : ℝ) : ℕ → σ → ℝ :=
  fun ch idx =>
    if ch < 9 then
      rotate_peaks (fun j => data (3 * (ch / 3) + j)) ax ay az (ch % 3) idx
    else 0

/-- `np.random.uniform(lo, hi)` (also python `random.uniform`): the draw is
`lo + (hi - lo) * r` where `r` is a fresh tape value in `[0, 1)`. -/
def uniformD (lo hi r : ℝ) : ℝ := lo + (hi - lo) * r

/-- The per-angle sampling in `augment_spatial`'s rotation step (source lines
319–331): a degenerate range (`angle[0] == angle[1]`) is taken verbatim,
otherwise `np.random.uniform(angle[0], angle[1])` is drawn. -/
def sampleAngleDraw (lo hi r : ℝ) : ℝ :=
  if lo = hi then lo else uniformD lo hi r

/-- The scale-factor sampling in `augment_spatial`'s scaling step (source
lines 338–341): with the coin draw (`np.random.random()`) below `0.5` and
`scale[0] < 1`, draw from `uniform(scale[0], 1)`; otherwise draw from
`uniform(max(scale[0], 1), scale[1])`. -/
def scaleDraw (s0 s1 coin r : ℝ) : ℝ :=
  if coin < 1 / 2 ∧ s0 < 1 then uniformD s0 1 r
  else uniformD (max s0 1) s1 r

/-- Python `round(x, 2)` used on the zoom factors: round to two decimals. -/
def roundPy2 (x : ℝ) : ℝ := ((round (x * 100) : ℤ) : ℝ) / 100

/-- Modelled from the spec: the `center_crop` primitive (external
batchgenerators collaborator): a deterministic center crop of one channel to
`patch`, reading the source at offset `(shape[d] - patch[d]) // 2` in every
spatial dimension. -/
def center_crop_single (shape patch : Idx3) (img : Idx3 → ℝ) : Idx3 → ℝ :=
  fun idx =>
    img ((shape.1 - patch.1) / 2 + idx.1,
         (shape.2.1 - patch.2.1) / 2 + idx.2.1,
         (shape.2.2 - patch.2.2) / 2 + idx.2.2)

/-- A coordinate field over the output patch: for each of the 3 axes and each
output voxel, a sampling coordinate in the source volume. -/
abbrev Coords : Type := Fin 3 → Idx3 → ℝ

/-- The external batchgenerators primitives consumed by `augment_spatial`,
kept abstract: coordinate-mesh construction, elastic deformation, mesh
rotation (2D and 3D), mesh scaling, resampling through a coordinate field
(`interpolate_img`), and single-sample random cropping (`random_crop`). -/
structure SpatialExt where
  mesh : Idx3 → Coords
  elastic : Coords → ℝ → ℝ → Coords
  rot2 : Coords → ℝ → Coords
  rot3 : Coords → ℝ → ℝ → ℝ → Coords
  scaleC : Coords → ℝ → Coords
  interp : (Idx3 → ℝ) → Coords → ℕ → String → ℝ → Bool → (Idx3 → ℝ)
  randomCropF : (ℕ → Idx3 → ℝ) → Option (ℕ → Idx3 → ℝ) → Idx3 → (Fin 3 → ℝ) →
    ((ℕ → Idx3 → ℝ) × (ℕ → Idx3 → ℝ))

/-- The configuration bundle of `augment_spatial` (its keyword arguments),
with `patch_center_dist_from_border` already normalised to a per-dimension
value (source lines 301–302). -/
structure AugCfg where
  doElastic : Bool
  alpha : ℝ × ℝ
  sigma : ℝ × ℝ
  doRotation : Bool
  angleX : ℝ × ℝ
  angleY : ℝ × ℝ
  angleZ : ℝ × ℝ
  doScale : Bool
  scaleR : ℝ × ℝ
  borderModeData : String
  borderCvalData : ℝ
  orderData : ℕ
  borderModeSeg : String
  borderCvalSeg : ℝ
  orderSeg : ℕ
  randomCrop : Bool
  pEl : ℝ
  pScale : ℝ
  pRot : ℝ
  patchCenterDist : Fin 3 → ℝ

/-- The random tape consumed for one sample of the batch: one slot per call
to the random source inside the per-sample loop body. Gate draws
(`np.random.uniform()` and `np.random.random()`) lie in `[0, 1)`. -/
structure SampleRand where
  uEl : ℝ
  aDraw : ℝ
  sDraw : ℝ
  uRot : ℝ
  rx : ℝ
  ry : ℝ
  rz : ℝ
  uScale : ℝ
  coin : ℝ
  scDraw : ℝ
  ctr : Fin 3 → ℝ

/-- The rotation step's dimension dispatch (source lines 323–334): in 3D all
three angles are sampled with `sampleAngleDraw` and the 3-axis mesh rotation
is used; otherwise only `angle_x` is sampled and the single-axis 2D rotation
is used. -/
def rotStepCoords {γ : Type} (dim : ℕ) (rot2 : γ → ℝ → γ)
    (rot3 : γ → ℝ → ℝ → ℝ → γ) (c : γ) (aX aY aZ : ℝ × ℝ)
    (rx ry rz : ℝ) : γ :=
  if dim = 3 then
    rot3 c (sampleAngleDraw aX.1 aX.2 rx) (sampleAngleDraw aY.1 aY.2 ry)
      (sampleAngleDraw aZ.1 aZ.2 rz)
  else rot2 c (sampleAngleDraw aX.1 aX.2 rx)

/-- The coordinate field of one sample after the three randomized effects and
recentring (source lines 305–353), or `none` when no effect fired
(`modified_coords` stayed `False`).  When modified, each axis of the mesh is
shifted by a random crop center (uniform in
`[dist_from_border, shape - dist_from_border]`) or by the rounded volume
center, per `random_crop`. -/
def augmentCoords (cfg : AugCfg) (ext : SpatialExt) (shape patch : Idx3)
    (r : SampleRand) : Option Coords :=
  let elOn := r.uEl < cfg.pEl ∧ cfg.doElastic = true
  let rotOn := r.uRot < cfg.pRot ∧ cfg.doRotation = true
  let scOn := r.uScale < cfg.pScale ∧ cfg.doScale = true
  let c1 := if elOn then
      ext.elastic (ext.mesh patch) (uniformD cfg.alpha.1 cfg.alpha.2 r.aDraw)
        (uniformD cfg.sigma.1 cfg.sigma.2 r.sDraw)
    else ext.mesh patch
  let c2 := if rotOn then
      rotStepCoords 3 ext.rot2 ext.rot3 c1 cfg.angleX cfg.angleY cfg.angleZ
        r.rx r.ry r.rz
    else c1
  let c3 := if scOn then
      ext.scaleC c2 (scaleDraw cfg.scaleR.1 cfg.scaleR.2 r.coin r.scDraw)
    else c2
  if elOn ∨ rotOn ∨ scOn then
    some (fun d idx => c3 d idx +
      (if cfg.randomCrop = true then
        uniformD (cfg.patchCenterDist d)
          (((comp3 shape d : ℕ) : ℝ) - cfg.patchCenterDist d) (r.ctr d)
      else ((round (((comp3 shape d : ℕ) : ℝ) / 2) : ℤ) : ℝ)))
  else none

/-- The random-crop margins of the fast path (source line 368):
`patch_center_dist_from_border[d] - patch_size[d] // 2`. -/
def cropMargins (cfg : AugCfg) (patch : Idx3) : Fin 3 → ℝ :=
  fun d => cfg.patchCenterDist d - ((comp3 patch d / 2 : ℕ) : ℝ)

/-- The data slice of one sample produced by `augment_spatial` (3D case,
source lines 304–378): resample every data channel through the modified
coordinate field, or crop (randomly or centered) when no effect fired; in
both cases channels beyond the channel count keep their `np.zeros` value;
finally line 378 overwrites the sample with
`rotate_peaks_all(data_result[sample_id], 1, 0, 0)` — the hard-coded angles,
flagged `#todo important: change` in the source. -/
def augmentSampleData (cfg : AugCfg) (ext : SpatialExt) (shape patch : Idx3)
    (r : SampleRand) (nc : ℕ) (dataS : ℕ → Idx3 → ℝ)
    (segS : Option (ℕ → Idx3 → ℝ)) : ℕ → Idx3 → ℝ :=
  let pre : ℕ → Idx3 → ℝ :=
    match augmentCoords cfg ext shape patch r with
    | some cf => fun ch idx =>
        if ch < nc then
          ext.interp (dataS ch) cf cfg.orderData cfg.borderModeData
            cfg.borderCvalData false idx
        else 0
    | none =>
      if cfg.randomCrop = true then
        fun ch idx =>
          if ch < nc then
            (ext.randomCropF dataS segS patch (cropMargins cfg patch)).1 ch idx
          else 0
      else
        fun ch idx =>
          if ch < nc then center_crop_single shape patch (dataS ch) idx else 0
  fun ch idx => rotate_peaks_all pre 1 0 0 ch idx

/-- The segmentation slice of one sample produced by `augment_spatial` (3D
case, source lines 357–361 and 363–374): resample with the segmentation
order/border policy and `is_seg=True`, or crop along with the data; the
Peak-Rotation Corrector is never applied to the segmentation. -/
def augmentSampleSeg (cfg : AugCfg) (ext : SpatialExt) (shape patch : Idx3)
    (r : SampleRand) (ncSeg : ℕ) (dataS : ℕ → Idx3 → ℝ)
    (segS : ℕ → Idx3 → ℝ) : ℕ → Idx3 → ℝ :=
  match augmentCoords cfg ext shape patch r with
  | some cf => fun ch idx =>
      if ch < ncSeg then
        ext.interp (segS ch) cf cfg.orderSeg cfg.borderModeSeg
          cfg.borderCvalSeg true idx
      else 0
  | none =>
    if cfg.randomCrop = true then
      fun ch idx =>
        if ch < ncSeg then
          (ext.randomCropF dataS (some segS) patch (cropMargins cfg patch)).2
            ch idx
        else 0
    else
      fun ch idx =>
        if ch < ncSeg then center_crop_single shape patch (segS ch) idx else 0

/-- `augment_spatial(data, seg, patch_size, ...)` (3D case, value level):
per-sample processing of the batch; `seg_result` is `None` exactly when `seg`
is `None` (source lines 287–293), otherwise it is built sample by sample next
to the data. Samples beyond the batch size keep their `np.zeros` value. -/
def augment_spatial (cfg : AugCfg) (ext : SpatialExt) (rand : ℕ → SampleRand)
    (n nc ncSeg : ℕ) (shape patch : Idx3) (data : ℕ → ℕ → Idx3 → ℝ)
    (seg : Option (ℕ → ℕ → Idx3 → ℝ)) :
    (ℕ → ℕ → Idx3 → ℝ) × Option (ℕ → ℕ → Idx3 → ℝ) :=
  ( fun s ch idx =>
      if s < n then
        augmentSampleData cfg ext shape patch (rand s) nc (data s)
          (seg.map (fun sg => sg s)) ch idx
      else 0,
    seg.map (fun sg s ch idx =>
      if s < n then
        augmentSampleSeg cfg ext shape patch (rand s) ncSeg (data s) (sg s)
          ch idx
      else 0) )

/-- The result-allocation preamble of `augment_spatial` (source lines
286–299): the output array shape is `(n, c, patch_size[0], patch_size[1])`
when `len(patch_size) == 2` and
`(n, c, patch_size[0], patch_size[1], patch_size[2])` otherwise; a tuple
access beyond `len(patch_size)` raises an `IndexError`.  There is no rank
validation. -/
def resultShapePy (n c : ℕ) (patch : List ℕ) : Except PyErr (List ℕ) :=
  if patch.length = 2 then
    Except.ok [n, c, patch.getD 0 0, patch.getD 1 0]
  else
    match patch.get? 0, patch.get? 1, patch.get? 2 with
    | some p0, some p1, some p2 => Except.ok [n, c, p0, p1, p2]
    | _, _, _ => Except.error PyErr.indexError

/-- The only patch-rank check in the file, in
`SpatialTransform_Custom.__call__` (source lines 463–469): when the
configured `patch_size` is `None`, the patch is taken from the data shape and
a `ValueError` is raised unless the data array rank is 4 or 5; a configured
`patch_size` is passed through unchecked. -/
def callPatchCheck (ps : Option (List ℕ)) (dataShape : List ℕ) :
    Except PyErr (List ℕ) :=
  match ps with
  | some p => Except.ok p
  | none =>
    if dataShape.length = 4 then
      Except.ok [dataShape.getD 2 0, dataShape.getD 3 0]
    else if dataShape.length = 5 then
      Except.ok [dataShape.getD 2 0, dataShape.getD 3 0, dataShape.getD 4 0]
    else Except.error (PyErr.valueError "only support 2D/3D batch data.")

/-- A shape-carrying numpy array: the list of extents together with a total
value function on index lists (values outside the shape are irrelevant). -/
structure NArr where
  shape : List ℕ
  val : List ℕ → ℝ

/-- Componentwise bounds check of an index list against a shape. -/
def idxInside (idx bnd : List ℕ) : Bool :=
  decide (idx.length = bnd.length) &&
    (idx.zip bnd).all (fun p => decide (p.1 < p.2))

/-- The message of the zoom-range `ValueError` (source line 207). -/
def zoomRangeMsg : String :=
  "First value of zoom_range must be smaller than second value."

/-- The message of the dimension `ValueError` (source line 240). -/
def dimMsg : String := "Invalid dimension size"

/-- One channel of `augment_linear_downsampling_scipy` (source lines
212–238): draw the per-sample zoom factor, downsample with `scipy` zoom
(abstract external `zoomO`, linear order 1), upsample with the rounded
reciprocal factor (nearest neighbour, order 0), then cut each dimension to
the original extent and zero-pad back to the original shape. -/
def resampledChan (zoomO : NArr → ℝ → ℕ → NArr) (zr : ℝ × ℝ) (rv : ℝ)
    (spatialShape : List ℕ) (img : List ℕ → ℝ) : NArr :=
  let z := roundPy2 (uniformD zr.1 (zr.2 + 1e-6) rv)
  let down := zoomO ⟨spatialShape, img⟩ z 1
  let up := zoomO down (roundPy2 (1 / z)) 0
  ⟨spatialShape, fun idx =>
    if idxInside idx (List.zipWith min up.shape spatialShape) = true then
      up.val idx
    else 0⟩

/-- The per-sample/per-channel output family of
`augment_linear_downsampling_scipy` on the non-raising paths: resampled when
the spatial rank is 2 or 3, untouched when the loops are empty. -/
def augLinResult (zoomO : NArr → ℝ → ℕ → NArr) (rand : ℕ → ℝ)
    (spatialShape : List ℕ) (data : ℕ → ℕ → List ℕ → ℝ) (zr : ℝ × ℝ) :
    ℕ → ℕ → NArr :=
  fun s ch =>
    if spatialShape.length = 3 ∨ spatialShape.length = 2 then
      resampledChan zoomO zr (rand s) spatialShape (data s ch)
    else ⟨spatialShape, data s ch⟩

/-- `augment_linear_downsampling_scipy(data, zoom_range)` (source lines
193–242): first add `1e-6` to the upper bound and raise a `ValueError` if the
lower bound is not strictly below it (before touching any sample); then
process every sample/channel; a spatial rank other than 2 or 3 raises
`ValueError("Invalid dimension size")` at the first channel (so only when the
loops are non-empty, `n ≥ 1` and `c ≥ 1`). -/
def augment_linear_downsampling_scipy (zoomO : NArr → ℝ → ℕ → NArr)
    (rand : ℕ → ℝ) (n c : ℕ) (spatialShape : List ℕ)
    (data : ℕ → ℕ → List ℕ → ℝ) (zr : ℝ × ℝ) :
    Except PyErr (ℕ → ℕ → NArr) :=
  if zr.2 + 1e-6 ≤ zr.1 then Except.error (PyErr.valueError zoomRangeMsg)
  else if spatialShape.length = 3 ∨ spatialShape.length = 2 ∨ n = 0 ∨ c = 0 then
    Except.ok (augLinResult zoomO rand spatialShape data zr)
  else Except.error (PyErr.valueError dimMsg)

/-- Mean of one channel (`data[b, c].mean()`), population convention. -/
def meanF {k : ℕ} (v : Fin k → ℝ) : ℝ := (∑ i, v i) / k

/-- Standard deviation of one channel (`data[b, c].std()`, numpy population
standard deviation, `ddof = 0`). -/
def stdF {k : ℕ} (v : Fin k → ℝ) : ℝ :=
  Real.sqrt ((∑ i, (v i - meanF v) ^ 2) / k)

/-- The divisor used by `zero_mean_unit_variance_normalization` in the
per-channel branch (source line 60): `data[b, c].std() + epsilon`. -/
def zmuvDivisor {k : ℕ} (v : Fin k → ℝ) (eps : ℝ) : ℝ := stdF v + eps

/-- Mean of a whole sample (`data[b].mean()`, all channels pooled). -/
def meanFlat {nc k : ℕ} (v : Fin nc → Fin k → ℝ) : ℝ :=
  (∑ c, ∑ i, v c i) / (nc * k)

/-- Standard deviation of a whole sample (`data[b].std()`). -/
def stdFlat {nc k : ℕ} (v : Fin nc → Fin k → ℝ) : ℝ :=
  Real.sqrt ((∑ c, ∑ i, (v c i - meanFlat v) ^ 2) / (nc * k))

/-- `zero_mean_unit_variance_normalization(data, per_channel, epsilon)`
(source lines 55–66): for each sample of the batch, subtract the mean and
divide by `std + epsilon`, channelwise when `per_channel` and samplewise
otherwise; samples beyond the batch size are untouched. -/
def zero_mean_unit_variance_normalization {nc k : ℕ} (perChannel : Bool)
    (nb : ℕ) (data : ℕ → Fin nc → Fin k → ℝ) (eps : ℝ) :
    ℕ → Fin nc → Fin k → ℝ :=
  fun b c i =>
    if b < nb then
      if perChannel = true then
        (data b c i - meanF (data b c)) / zmuvDivisor (data b c) eps
      else (data b c i - meanFlat (data b)) / (stdFlat (data b) + eps)
    else data b c i

/-- A fixture configuration: all three effects and the random crop disabled;
the numeric fields keep the source's defaults where they are rational. -/
def cfg0 : AugCfg where
  doElastic := false
  alpha := (0, 1000)
  sigma := (10, 13)
  doRotation := false
  angleX := (0, 6)
  angleY := (0, 6)
  angleZ := (0, 6)
  doScale := false
  scaleR := (3 / 4, 5 / 4)
  borderModeData := "nearest"
  borderCvalData := 0
  orderData := 3
  borderModeSeg := "constant"
  borderCvalSeg := 0
  orderSeg := 0
  randomCrop := false
  pEl := 1
  pScale := 1
  pRot := 1
  patchCenterDist := fun _ => 30

/-- A fixture instance of the external primitives (their values are never
consulted on the fast path exercised by the concrete theorems). -/
def ext0 : SpatialExt where
  mesh := fun _ _ _ => 0
  elastic := fun c _ _ => c
  rot2 := fun c _ => c
  rot3 := fun c _ _ _ => c
  scaleC := fun c _ => c
  interp := fun _ _ _ _ _ _ _ => 0
  randomCropF := fun d _ _ _ => (d, fun _ _ => 0)

/-- A fixture random tape with every slot at `0`. -/
def rand0 : SampleRand where
  uEl := 0
  aDraw := 0
  sDraw := 0
  uRot := 0
  rx := 0
  ry := 0
  rz := 0
  uScale := 0
  coin := 0
  scDraw := 0
  ctr := fun _ => 0

/-- A fixture 3-channel data sample holding the constant vector `(0, 1, 0)`
at every voxel. -/
def dataV : ℕ → Idx3 → ℝ := fun ch _ => if ch = 1 then 1 else 0

/-- A fixture vector field holding the constant vector `(1, 0, 0)` at its
single location. -/
def peaks0 : ℕ → Unit → ℝ := fun ch _ => if ch = 0 then 1 else 0

/-- A fixture channel-graded field: channel `ch` holds the constant `ch`. -/
def dataW : ℕ → Unit → ℝ := fun ch _ => (ch : ℝ)

/-- A constant one-channel batch over three voxels. -/
def constData : ℕ → Fin 1 → Fin 3 → ℝ := fun _ _ _ => 5

theorem matMul3_id3_left (M : Mat3) : matMul3 id3 M = M := by
  funext i k
  fin_cases i <;> simp [matMul3, id3]

theorem matMul3_id3_right (M : Mat3) : matMul3 M id3 = M := by
  funext i k
  fin_cases k <;> simp [matMul3, id3]

theorem matMul3_assoc (A B C : Mat3) :
    matMul3 (matMul3 A B) C = matMul3 A (matMul3 B C) := by
  funext i k
  simp only [matMul3]
  ring

theorem rotMx_zero : rotMx 0 = id3 := by
  funext i j
  fin_cases i <;> fin_cases j <;> simp [rotMx, id3]

theorem rotMy_zero : rotMy 0 = id3 := by
  funext i j
  fin_cases i <;> fin_cases j <;> simp [rotMy, id3]

theorem rotMz_zero : rotMz 0 = id3 := by
  funext i j
  fin_cases i <;> fin_cases j <;> simp [rotMz, id3]

theorem vecMul3_id3 (v : Fin 3 → ℝ) : vecMul3 v id3 = v := by
  funext k
  fin_cases k <;> simp [vecMul3, id3]

/-- The matrix built inside `rotate_peaks` equals the composed rotation
matrix `Rz·Ry·Rx`. -/
theorem rotPeaksMatrix_eq (ax ay az : ℝ) :
    rotPeaksMatrix ax ay az =
      matMul3 (matMul3 (rotMz az) (rotMy ay)) (rotMx ax) := by
  unfold rotPeaksMatrix create_matrix_rotation_z_3d create_matrix_rotation_y_3d
    create_matrix_rotation_x_3d
  rw [matMul3_id3_right, matMul3_assoc]

/-- With all three angles `0` the matrix of `rotate_peaks` is the identity. -/
theorem rotPeaksMatrix_zero : rotPeaksMatrix 0 0 0 = id3 := by
  rw [rotPeaksMatrix_eq, rotMx_zero, rotMy_zero, rotMz_zero,
    matMul3_id3_right, matMul3_id3_right]

/-- The Peak-Rotation Corrector with angles `(0,0,0)` is the identity on the
first nine channels (those touched by its loop). -/
theorem rotate_peaks_all_id {σ : Type} (X : ℕ → σ → ℝ) (ch : ℕ) (h : ch < 9)
    (idx : σ) : rotate_peaks_all X 0 0 0 ch idx = X ch idx := by
  simp only [rotate_peaks_all, rotate_peaks]
  rw [if_pos h]
  have h3 : ch % 3 < 3 := Nat.mod_lt _ (by norm_num)
  rw [dif_pos h3, rotPeaksMatrix_zero, vecMul3_id3]
  show X (3 * (ch / 3) + ch % 3) idx = X ch idx
  congr 1
  omega

/-- When the three effects are disabled, no draw can fire and the coordinate
mesh is never modified. -/
theorem augmentCoords_none (cfg : AugCfg) (ext : SpatialExt)
    (shape patch : Idx3) (r : SampleRand) (hE : cfg.doElastic = false)
    (hR : cfg.doRotation = false) (hS : cfg.doScale = false) :
    augmentCoords cfg ext shape patch r = none := by
  simp [augmentCoords, hE, hR, hS]

/-- C2: for every input vector-field array and every angle triple,
`rotate_peaks` replaces each spatial location's row 3-vector `v` by
`v · R` with `R = Rz·Ry·Rx`, the three axis rotations composed in that fixed
order (the external matrix builders being modelled from the spec). -/
theorem C2_rotate_peaks_row_vecmul {σ : Type} (peaks : ℕ → σ → ℝ)
    (ax ay az : ℝ) (r : Fin 3) (idx : σ) :
    rotate_peaks peaks ax ay az (r : ℕ) idx =
      vecMul3 (fun j => peaks (j : ℕ) idx)
        (matMul3 (matMul3 (rotMz az) (rotMy ay)) (rotMx ax)) r := by
  simp only [rotate_peaks]
  rw [dif_pos r.isLt, rotPeaksMatrix_eq]

/-- C3 (amended): for at most three vector groups, `rotate_peaks_all` maps
output channel `3*g + j` to component `j` of `rotate_peaks` applied with the
same angles to the contiguous channel triple of group `g` alone — the same
single rotation applied to each group independently. -/
theorem C3_rotate_peaks_all_groupwise {σ : Type} (data : ℕ → σ → ℝ)
    (ax ay az : ℝ) (G g j : ℕ) (idx : σ) (hG : G ≤ 3) (hg : g < G)
    (hj : j < 3) :
    rotate_peaks_all data ax ay az (3 * g + j) idx =
      rotate_peaks (fun ch => data (3 * g + ch)) ax ay az j idx := by
  have h9 : 3 * g + j < 9 := by omega
  simp only [rotate_peaks_all]
  rw [if_pos h9]
  have hdiv : (3 * g + j) / 3 = g := by omega
  have hmod : (3 * g + j) % 3 = j := by omega
  rw [hdiv, hmod]

/-- Witness for C3: with three groups present, output channel `7 = 3·2+1` is
component 1 of the rotation of group 2. -/
theorem C3_rotate_peaks_all_groupwise_w :
    rotate_peaks_all dataW 0 0 0 (3 * 2 + 1) () =
      rotate_peaks (fun ch => dataW (3 * 2 + ch)) 0 0 0 1 () :=
  C3_rotate_peaks_all_groupwise dataW 0 0 0 3 2 1 () (by norm_num)
    (by norm_num) (by norm_num)

/-- Counterexample for C3 as stated: with `G = 4` groups of constant ones and
the identity angles, output channel 9 (group 3) is zeroed instead of being
rotated — the loop only covers the first three groups, while the claimed
groupwise rotation would leave the value at `1`. -/
theorem C3_fourth_group_dropped :
    rotate_peaks_all (fun _ _ => (1 : ℝ)) 0 0 0 9 () = 0 ∧
    rotate_peaks (fun _ _ => (1 : ℝ)) 0 0 0 0 () = 1 := by
  constructor
  · simp [rotate_peaks_all]
  · simp only [rotate_peaks]
    rw [dif_pos (by norm_num : (0 : ℕ) < 3), rotPeaksMatrix_zero, vecMul3_id3]

/-- The matrix actually fed to the corrector on line 378: with the
hard-coded angles `(1, 0, 0)` it is the x-axis rotation by 1 radian. -/
theorem rotPeaksMatrix_one_zero_zero : rotPeaksMatrix 1 0 0 = rotMx 1 := by
  rw [rotPeaksMatrix_eq, rotMy_zero, rotMz_zero, matMul3_id3_left,
    matMul3_id3_left]

/-- C1 (the code at the failing inputs): when the rotation step is skipped
(all effects disabled) and `random_crop=False`, the sample's data output is
the center crop post-processed by the Peak-Rotation Corrector with the
hard-coded angles `(1, 0, 0)` from line 378 — not with the identity rotation
the claim requires; the second conjunct shows that the corrector invoked with
the identity angles would have left the crop unchanged. -/
theorem C1_corrector_gets_hardcoded_angles (cfg : AugCfg) (ext : SpatialExt)
    (shape patch : Idx3) (r : SampleRand) (nc : ℕ) (dataS : ℕ → Idx3 → ℝ)
    (segS : Option (ℕ → Idx3 → ℝ)) (ch : ℕ) (idx : Idx3)
    (hE : cfg.doElastic = false) (hR : cfg.doRotation = false)
    (hS : cfg.doScale = false) (hC : cfg.randomCrop = false) :
    augmentSampleData cfg ext shape patch r nc dataS segS ch idx =
      rotate_peaks_all
        (fun ch' idx' =>
          if ch' < nc then center_crop_single shape patch (dataS ch') idx'
          else 0) 1 0 0 ch idx ∧
    (ch < 9 →
      rotate_peaks_all
        (fun ch' idx' =>
          if ch' < nc then center_crop_single shape patch (dataS ch') idx'
          else 0) 0 0 0 ch idx =
      (if ch < nc then center_crop_single shape patch (dataS ch) idx
       else 0)) := by
  constructor
  · simp only [augmentSampleData,
      augmentCoords_none cfg ext shape patch r hE hR hS]
    simp [hC]
  · intro h9
    exact rotate_peaks_all_id _ ch h9 idx

/-- Witness for C1 at the fixtures: three channels, unit shapes. -/
theorem C1_corrector_gets_hardcoded_angles_w :
    augmentSampleData cfg0 ext0 (1, 1, 1) (1, 1, 1) rand0 3 dataV none 2
        (0, 0, 0) =
      rotate_peaks_all
        (fun ch' idx' =>
          if ch' < 3 then
            center_crop_single (1, 1, 1) (1, 1, 1) (dataV ch') idx'
          else 0) 1 0 0 2 (0, 0, 0) ∧
    ((2 : ℕ) < 9 →
      rotate_peaks_all
        (fun ch' idx' =>
          if ch' < 3 then
            center_crop_single (1, 1, 1) (1, 1, 1) (dataV ch') idx'
          else 0) 0 0 0 2 (0, 0, 0) =
      (if (2 : ℕ) < 3 then
        center_crop_single (1, 1, 1) (1, 1, 1) (dataV 2) (0, 0, 0)
       else 0)) :=
  C1_corrector_gets_hardcoded_angles cfg0 ext0 (1, 1, 1) (1, 1, 1) rand0 3
    dataV none 2 (0, 0, 0) rfl rfl rfl rfl

/-- C4 (the code at the failing input): with all three effects disabled and
`random_crop=False`, on a 3-channel sample holding the constant vector
`(0, 1, 0)`, the data output at channel 2 is `-sin 1 ≠ 0`, whereas the
deterministic center crop of the input (the value the claim requires) is `0`
there — line 378's corrector call with angles `(1, 0, 0)` breaks the
fast-path equality. -/
theorem C4_fast_path_differs_from_center_crop :
    augmentSampleData cfg0 ext0 (1, 1, 1) (1, 1, 1) rand0 3 dataV none 2
        (0, 0, 0) = -Real.sin 1 ∧
    center_crop_single (1, 1, 1) (1, 1, 1) (dataV 2) (0, 0, 0) = 0 ∧
    -Real.sin 1 ≠ 0 := by
  refine ⟨?_, ?_, ?_⟩
  · simp only [augmentSampleData,
      augmentCoords_none cfg0 ext0 (1, 1, 1) (1, 1, 1) rand0 rfl rfl rfl]
    have hC : cfg0.randomCrop = false := rfl
    simp only [hC, Bool.false_eq_true, if_false]
    simp only [rotate_peaks_all, rotate_peaks]
    norm_num
    rw [rotPeaksMatrix_one_zero_zero]
    simp [vecMul3, rotMx, center_crop_single, dataV]
  · simp [center_crop_single, dataV]
  · have h1 : 0 < Real.sin 1 :=
      Real.sin_pos_of_pos_of_lt_pi (by norm_num)
        (by linarith [Real.pi_gt_three])
    exact neg_ne_zero.mpr (ne_of_gt h1)

/-- C5: for a valid patch rank (2 or 3) the allocation preamble of
`augment_spatial` produces output arrays of shape `(n, c, *patch_size)`
independently of the input spatial size, and the segmentation output is
present exactly when the input segmentation is. -/
theorem C5_output_shape_and_seg_presence (n c : ℕ) (patch : List ℕ)
    (cfg : AugCfg) (ext : SpatialExt) (rand : ℕ → SampleRand)
    (nN nc ncSeg : ℕ) (shape ptch : Idx3) (data : ℕ → ℕ → Idx3 → ℝ)
    (seg : Option (ℕ → ℕ → Idx3 → ℝ))
    (h : patch.length = 2 ∨ patch.length = 3) :
    resultShapePy n c patch = Except.ok ([n, c] ++ patch) ∧
    ((augment_spatial cfg ext rand nN nc ncSeg shape ptch data seg).2.isSome
      ↔ seg.isSome) := by
  constructor
  · rcases h with h | h
    · obtain ⟨a, b, rfl⟩ := List.length_eq_two.mp h
      rfl
    · obtain ⟨a, b, d, rfl⟩ := List.length_eq_three.mp h
      rfl
  · simp [augment_spatial]

/-- Witness for C5: a rank-2 patch and a batch without segmentation. -/
theorem C5_output_shape_and_seg_presence_w :
    resultShapePy 2 3 [4, 5] = Except.ok [2, 3, 4, 5] ∧
    ((augment_spatial cfg0 ext0 (fun _ => rand0) 1 3 1 (1, 1, 1) (1, 1, 1)
        (fun _ => dataV) none).2.isSome
      ↔ (none : Option (ℕ → ℕ → Idx3 → ℝ)).isSome) :=
  C5_output_shape_and_seg_presence 2 3 [4, 5] cfg0 ext0 (fun _ => rand0) 1 3 1
    (1, 1, 1) (1, 1, 1) (fun _ => dataV) none (Or.inl rfl)

/-- C9 (amended): `augment_spatial` performs no patch-rank validation: a
patch of rank at most 1 fails with an `IndexError` during result allocation,
a patch of rank at least 4 is silently treated as rank 3 (only its first
three entries are used); the only rank check in the file is in
`SpatialTransform_Custom.__call__` and fires (with a `ValueError`) only when
`patch_size` is `None` and the data rank is neither 4 nor 5. -/
theorem C9_no_rank_validation (n c : ℕ) (patch dataShape : List ℕ) :
    (patch.length ≤ 1 →
      resultShapePy n c patch = Except.error PyErr.indexError) ∧
    (4 ≤ patch.length →
      resultShapePy n c patch =
        Except.ok [n, c, patch.getD 0 0, patch.getD 1 0, patch.getD 2 0]) ∧
    (callPatchCheck none dataShape =
        Except.error (PyErr.valueError "only support 2D/3D batch data.") ↔
      (dataShape.length ≠ 4 ∧ dataShape.length ≠ 5)) := by
  refine ⟨?_, ?_, ?_⟩
  · intro h
    rcases patch with _ | ⟨a, _ | ⟨b, t⟩⟩
    · rfl
    · rfl
    · simp at h
  · intro h
    rcases patch with _ | ⟨a, _ | ⟨b, _ | ⟨c', _ | ⟨d, t⟩⟩⟩⟩
    · simp at h
    · simp at h
    · simp at h
    · simp at h
    · have hne : (a :: b :: c' :: d :: t).length ≠ 2 := by
        simp
      simp only [resultShapePy, if_neg hne]
      rfl
  · by_cases h4 : dataShape.length = 4
    · simp [callPatchCheck, h4]
    · by_cases h5 : dataShape.length = 5
      · simp [callPatchCheck, h4, h5]
      · simp [callPatchCheck, h4, h5]

/-- Witness for C9: a rank-1 patch and a rank-4 data shape. -/
theorem C9_no_rank_validation_w :
    (([5] : List ℕ).length ≤ 1 →
      resultShapePy 1 1 [5] = Except.error PyErr.indexError) ∧
    (4 ≤ ([5] : List ℕ).length →
      resultShapePy 1 1 [5] =
        Except.ok [1, 1, [5].getD 0 0, [5].getD 1 0, [5].getD 2 0]) ∧
    (callPatchCheck none [1, 1, 2, 2] =
        Except.error (PyErr.valueError "only support 2D/3D batch data.") ↔
      (([1, 1, 2, 2] : List ℕ).length ≠ 4 ∧
        ([1, 1, 2, 2] : List ℕ).length ≠ 5)) :=
  C9_no_rank_validation 1 1 [5] [1, 1, 2, 2]

/-- Counterexample for C9 as stated: with a rank-1 patch the allocation
fails with an `IndexError` (`patch_size[1]` out of range), which is not an
invalid-configuration `ValueError`. -/
theorem C9_rank_one_gives_indexerror :
    resultShapePy 1 1 [5] = Except.error PyErr.indexError ∧
    PyErr.indexError ≠ PyErr.valueError "only support 2D/3D batch data." :=
  ⟨rfl, by decide⟩

/-- C6: in `augment_spatial`'s rotation step a degenerate angle range is
taken verbatim; otherwise the angle is the uniform draw from the range (and
lies in `[lo, hi)`); in 3D the mesh rotation receives all three sampled
angles, while in 2D only `angle_x` is sampled and the y/z configuration and
tape slots are ignored. -/
theorem C6_rotation_angle_sampling {γ : Type} (lo hi r : ℝ)
    (rot2 : γ → ℝ → γ) (rot3 : γ → ℝ → ℝ → ℝ → γ) (c : γ)
    (aX aY aZ aY' aZ' : ℝ × ℝ) (rx ry rz ry' rz' : ℝ)
    (h0 : 0 ≤ r) (h1 : r < 1) :
    (lo = hi → sampleAngleDraw lo hi r = lo) ∧
    (lo < hi → sampleAngleDraw lo hi r = uniformD lo hi r ∧
      lo ≤ sampleAngleDraw lo hi r ∧ sampleAngleDraw lo hi r < hi) ∧
    rotStepCoords 3 rot2 rot3 c aX aY aZ rx ry rz =
      rot3 c (sampleAngleDraw aX.1 aX.2 rx) (sampleAngleDraw aY.1 aY.2 ry)
        (sampleAngleDraw aZ.1 aZ.2 rz) ∧
    rotStepCoords 2 rot2 rot3 c aX aY aZ rx ry rz =
      rotStepCoords 2 rot2 rot3 c aX aY' aZ' rx ry' rz' := by
  refine ⟨?_, ?_, ?_, ?_⟩
  · intro h
    simp [sampleAngleDraw, h]
  · intro h
    have hne : lo ≠ hi := ne_of_lt h
    refine ⟨by simp [sampleAngleDraw, hne], ?_, ?_⟩
    · simp only [sampleAngleDraw, if_neg hne, uniformD]
      nlinarith [mul_nonneg (sub_nonneg.mpr (le_of_lt h)) h0]
    · simp only [sampleAngleDraw, if_neg hne, uniformD]
      nlinarith [mul_lt_mul_of_pos_left h1 (sub_pos.mpr h)]
  · simp [rotStepCoords]
  · simp [rotStepCoords]

/-- Witness for C6 on a non-degenerate range and a mid-tape draw. -/
theorem C6_rotation_angle_sampling_w :
    ((0 : ℝ) = 1 → sampleAngleDraw 0 1 (1 / 2) = 0) ∧
    ((0 : ℝ) < 1 → sampleAngleDraw 0 1 (1 / 2) = uniformD 0 1 (1 / 2) ∧
      (0 : ℝ) ≤ sampleAngleDraw 0 1 (1 / 2) ∧
      sampleAngleDraw 0 1 (1 / 2) < 1) ∧
    rotStepCoords 3 (fun (c : ℕ) (_ : ℝ) => c)
        (fun (c : ℕ) (_ _ _ : ℝ) => c) 0 (0, 1) (0, 1) (0, 1) 0 0 0 =
      (fun (c : ℕ) (_ _ _ : ℝ) => c) 0 (sampleAngleDraw 0 1 0)
        (sampleAngleDraw 0 1 0) (sampleAngleDraw 0 1 0) ∧
    rotStepCoords 2 (fun (c : ℕ) (_ : ℝ) => c)
        (fun (c : ℕ) (_ _ _ : ℝ) => c) 0 (0, 1) (0, 1) (0, 1) 0 0 0 =
      rotStepCoords 2 (fun (c : ℕ) (_ : ℝ) => c)
        (fun (c : ℕ) (_ _ _ : ℝ) => c) 0 (0, 1) (2, 3) (4, 5) 0 6 7 :=
  C6_rotation_angle_sampling 0 1 (1 / 2) (fun (c : ℕ) (_ : ℝ) => c)
    (fun (c : ℕ) (_ _ _ : ℝ) => c) 0 (0, 1) (0, 1) (0, 1) (2, 3) (4, 5)
    0 0 0 6 7 (by norm_num) (by norm_num)

/-- C7 (amended): for scale ranges with `scale[0] ≤ scale[1]` and
`1 ≤ scale[1]` (in particular every range straddling 1), the sampled factor
lies in `[scale[0], 1)` when the coin draw is below 1/2 and `scale[0] < 1`,
and in `[max(scale[0], 1), scale[1]]` otherwise. -/
theorem C7_scale_sampling_bimodal (s0 s1 coin r : ℝ) (h0 : 0 ≤ r)
    (h1 : r < 1) (hs : s0 ≤ s1) (h1s : 1 ≤ s1) :
    ((coin < 1 / 2 ∧ s0 < 1) →
      scaleDraw s0 s1 coin r ∈ Set.Ico s0 1) ∧
    (¬(coin < 1 / 2 ∧ s0 < 1) →
      scaleDraw s0 s1 coin r ∈ Set.Icc (max s0 1) s1) := by
  constructor
  · intro h
    rw [Set.mem_Ico]
    simp only [scaleDraw, if_pos h, uniformD]
    constructor
    · nlinarith [mul_nonneg (sub_nonneg.mpr (le_of_lt h.2)) h0]
    · nlinarith [mul_lt_mul_of_pos_left h1 (sub_pos.mpr h.2)]
  · intro h
    rw [Set.mem_Icc]
    simp only [scaleDraw, if_neg h, uniformD]
    have hm : max s0 1 ≤ s1 := max_le hs h1s
    constructor
    · nlinarith [mul_nonneg (sub_nonneg.mpr hm) h0]
    · nlinarith [mul_le_mul_of_nonneg_left (le_of_lt h1)
        (sub_nonneg.mpr hm)]

/-- Witness for C7 with the source's default range `(0.75, 1.25)` and a
low-half coin. -/
theorem C7_scale_sampling_bimodal_w :
    (((1 : ℝ) / 4 < 1 / 2 ∧ (3 : ℝ) / 4 < 1) →
      scaleDraw (3 / 4) (5 / 4) (1 / 4) (1 / 2) ∈
        Set.Ico ((3 : ℝ) / 4) 1) ∧
    (¬((1 : ℝ) / 4 < 1 / 2 ∧ (3 : ℝ) / 4 < 1) →
      scaleDraw (3 / 4) (5 / 4) (1 / 4) (1 / 2) ∈
        Set.Icc (max ((3 : ℝ) / 4) 1) (5 / 4)) :=
  C7_scale_sampling_bimodal (3 / 4) (5 / 4) (1 / 4) (1 / 2) (by norm_num)
    (by norm_num) (by norm_num) (by norm_num)

/-- Counterexample for C7 as stated: with the configuration
`scale = (0.5, 0.9)` (upper bound below 1) and an upper-branch coin, the
sampled factor is `1`, which does not lie in the claimed interval
`[max(scale[0], 1), scale[1]] = [1, 0.9]`. -/
theorem C7_upper_branch_escapes_interval :
    ¬((0.6 : ℝ) < 1 / 2 ∧ (0.5 : ℝ) < 1) ∧
    scaleDraw 0.5 0.9 0.6 0 = 1 ∧
    (1 : ℝ) ∉ Set.Icc (max (0.5 : ℝ) 1) 0.9 := by
  refine ⟨by norm_num, ?_, ?_⟩
  · rw [scaleDraw, if_neg (by norm_num)]
    simp [uniformD]
    norm_num
  · rw [Set.mem_Icc]
    norm_num

/-- C8: `augment_linear_downsampling_scipy` raises the zoom-range
`ValueError` — before any sample is touched — exactly when the configured
lower bound is not strictly below the upper bound plus `1e-6`; and every
output sample/channel of the non-raising paths has exactly the input's
spatial shape (cut and zero-padded back to it). -/
theorem C8_zoom_range_check_and_shape (zoomO : NArr → ℝ → ℕ → NArr)
    (rand : ℕ → ℝ) (n c : ℕ) (sh : List ℕ) (data : ℕ → ℕ → List ℕ → ℝ)
    (zr : ℝ × ℝ) (s ch : ℕ) :
    (augment_linear_downsampling_scipy zoomO rand n c sh data zr =
        Except.error (PyErr.valueError zoomRangeMsg) ↔
      ¬(zr.1 < zr.2 + 1e-6)) ∧
    (augLinResult zoomO rand sh data zr s ch).shape = sh := by
  constructor
  · by_cases h : zr.2 + 1e-6 ≤ zr.1
    · simp only [augment_linear_downsampling_scipy, if_pos h]
      simp [not_lt.mpr h]
    · have hlt : zr.1 < zr.2 + 1e-6 := not_le.mp h
      simp only [augment_linear_downsampling_scipy, if_neg h]
      by_cases hd : sh.length = 3 ∨ sh.length = 2 ∨ n = 0 ∨ c = 0
      · rw [if_pos hd]
        simp [hlt]
      · rw [if_neg hd]
        have hmsg : dimMsg ≠ zoomRangeMsg := by decide
        simp [hlt, hmsg]
  · by_cases hd : sh.length = 3 ∨ sh.length = 2
    · simp only [augLinResult, if_pos hd, resampledChan]
    · simp only [augLinResult, if_neg hd]

/-- The standard deviation of a channel is nonnegative. -/
theorem stdF_nonneg {k : ℕ} (v : Fin k → ℝ) : 0 ≤ stdF v :=
  Real.sqrt_nonneg _

/-- The standard deviation of a whole sample is nonnegative. -/
theorem stdFlat_nonneg {nc k : ℕ} (v : Fin nc → Fin k → ℝ) : 0 ≤ stdFlat v :=
  Real.sqrt_nonneg _

/-- C10: for every positive epsilon the divisors of
`zero_mean_unit_variance_normalization` — `std + epsilon`, channelwise and
samplewise — are strictly positive (also on constant inputs, whose standard
deviation is 0), and they are exactly the divisors the function applies. -/
theorem C10_no_division_by_zero (nc k nb : ℕ)
    (data : ℕ → Fin nc → Fin k → ℝ) (eps : ℝ) (b : ℕ) (c : Fin nc)
    (i : Fin k) (heps : 0 < eps) :
    0 < zmuvDivisor (data b c) eps ∧
    0 < stdFlat (data b) + eps ∧
    (b < nb → zero_mean_unit_variance_normalization true nb data eps b c i =
      (data b c i - meanF (data b c)) / zmuvDivisor (data b c) eps) ∧
    (b < nb → zero_mean_unit_variance_normalization false nb data eps b c i =
      (data b c i - meanFlat (data b)) / (stdFlat (data b) + eps)) := by
  refine ⟨?_, ?_, ?_, ?_⟩
  · exact add_pos_of_nonneg_of_pos (stdF_nonneg _) heps
  · exact add_pos_of_nonneg_of_pos (stdFlat_nonneg _) heps
  · intro h
    simp [zero_mean_unit_variance_normalization, h]
  · intro h
    simp [zero_mean_unit_variance_normalization, h]

/-- Witness for C10 on a constant batch (standard deviation 0) with the
default epsilon `1e-7`. -/
theorem C10_no_division_by_zero_w :
    0 < zmuvDivisor (constData 0 0) 1e-7 ∧
    0 < stdFlat (constData 0) + 1e-7 ∧
    ((0 : ℕ) < 1 →
      zero_mean_unit_variance_normalization true 1 constData 1e-7 0 0 0 =
      (constData 0 0 0 - meanF (constData 0 0)) /
        zmuvDivisor (constData 0 0) 1e-7) ∧
    ((0 : ℕ) < 1 →
      zero_mean_unit_variance_normalization false 1 constData 1e-7 0 0 0 =
      (constData 0 0 0 - meanFlat (constData 0)) /
        (stdFlat (constData 0) + 1e-7)) :=
  C10_no_division_by_zero 1 3 1 constData 1e-7 0 0 0 (by norm_num)

end

end TractSeg
